import Mathlib

/-!
Shallow embedding of the AetherOS Nexus microkernel core: capability model
(kernel/src/caps.rs), task control blocks and scheduler
(kernel/src/task/tcb.rs, kernel/src/task/scheduler.rs, kernel/src/task.rs),
IPC mailboxes (kernel/src/ipc/mailbox.rs), DMA buffer registry
(kernel/src/arch/x86_64/dma.rs), IRQ dispatcher (kernel/src/arch/x86_64/irq.rs)
and the syscall dispatcher (kernel/syscall.rs).

Global mutable statics of the kernel are gathered into one explicit state
record, KState, threaded through every operation.  Machine integers are
modelled as Nat; casts such as u64-to-u32 appear as explicit reductions
modulo 2 ^ 32.  Kernel log output is ignored; end-of-interrupt acknowledges
and copies into caller memory are recorded as events in the state so that
theorems can speak about them.  Machine addresses are not modelled: each
live DMA buffer is represented symbolically by its handle.
-/

namespace AetherKernel

/-- Capability enum from kernel/src/caps.rs. -/
inductive Capability
  | LogWrite
  | TimeRead
  | NetworkAccess
  | StorageAccess
  | IrqRegister (n : Nat)
  | DmaAlloc
  | DmaAccess
  | IrqAck (n : Nat)
  | IpcManage
deriving DecidableEq, Repr

/-- Task states from kernel/src/task/tcb.rs. -/
inductive TaskState
  | Running
  | Ready
  | Blocked
  | Exited
deriving DecidableEq, Repr

/-- Task control block from kernel/src/task/tcb.rs. -/
structure TaskControlBlock where
  id : Nat
  name : String
  state : TaskState
  capabilities : List Capability
deriving DecidableEq, Repr

/-- TaskControlBlock constructor: new tasks start in the Ready state. -/
def TaskControlBlock.new (id : Nat) (name : String) (capabilities : List Capability) :
    TaskControlBlock :=
  { id := id, name := name, state := TaskState.Ready, capabilities := capabilities }

/-- Lookup in an association list, modelling BTreeMap get. -/
def mapLookup {α : Type} (k : Nat) : List (Nat × α) → Option α
  | [] => none
  | (a, b) :: t => if a = k then some b else mapLookup k t

/-- Insert or replace in an association list, modelling BTreeMap insert. -/
def mapInsert {α : Type} (k : Nat) (v : α) : List (Nat × α) → List (Nat × α)
  | [] => [(k, v)]
  | (a, b) :: t => if a = k then (k, v) :: t else (a, b) :: mapInsert k v t

/-- Remove a key from an association list, modelling BTreeMap remove. -/
def mapErase {α : Type} (k : Nat) (l : List (Nat × α)) : List (Nat × α) :=
  l.filter (fun p => decide (p.1 ≠ k))

/-- Scheduler statics from kernel/src/task/scheduler.rs: RUN_QUEUE, TASKS,
CURRENT_TASK_ID. -/
structure SchedState where
  runQueue : List Nat
  tasks : List (Nat × TaskControlBlock)
  currentTaskId : Nat
deriving DecidableEq, Repr

/-- Capability list granted to the kernel task in scheduler init. -/
def kernelTaskCaps : List Capability :=
  [Capability.LogWrite, Capability.TimeRead, Capability.NetworkAccess,
   Capability.IrqRegister 0, Capability.DmaAlloc, Capability.DmaAccess,
   Capability.IrqAck 0, Capability.IpcManage, Capability.StorageAccess]

namespace scheduler

/-- Scheduler init: creates the kernel task (id 0) and makes it current.
The run queue static starts empty and init does not touch it. -/
def init : SchedState :=
  let kernel_task := TaskControlBlock.new 0 ("kernel") kernelTaskCaps
  { runQueue := [],
    tasks := mapInsert kernel_task.id kernel_task [],
    currentTaskId := kernel_task.id }

/-- scheduler::add_task: insert the TCB and push its id on the run queue. -/
def add_task (st : SchedState) (task : TaskControlBlock) : SchedState :=
  { st with tasks := mapInsert task.id task st.tasks,
            runQueue := st.runQueue ++ [task.id] }

/-- scheduler::remove_task. -/
def remove_task (st : SchedState) (task_id : Nat) : SchedState :=
  { st with tasks := mapErase task_id st.tasks,
            runQueue := st.runQueue.filter (fun i => decide (i ≠ task_id)) }

/-- scheduler::unblock_task: if the task exists and is Blocked, mark it Ready
and push it on the run queue; otherwise do nothing. -/
def unblock_task (st : SchedState) (task_id : Nat) : SchedState :=
  match mapLookup task_id st.tasks with
  | some task =>
    if task.state = TaskState.Blocked then
      { st with tasks := mapInsert task_id { task with state := TaskState.Ready } st.tasks,
                runQueue := st.runQueue ++ [task_id] }
    else st
  | none => st

/-- The pop loop inside scheduler::schedule: pop ids until one is present in
the task table; mark it Running and make it current.  Ids not found in the
table are skipped.  An empty queue leaves everything unchanged (idle). -/
def scheduleLoop (tasks : List (Nat × TaskControlBlock)) :
    List Nat → Nat → List (Nat × TaskControlBlock) × List Nat × Nat
  | [], cur => (tasks, [], cur)
  | id :: rest, cur =>
    match mapLookup id tasks with
    | some t => (mapInsert id { t with state := TaskState.Running } tasks, rest, id)
    | none => scheduleLoop tasks rest cur

/-- scheduler::schedule: if the outgoing task is still Running, demote it to
Ready and requeue it; then pop the next ready task. -/
def schedule (st : SchedState) : SchedState :=
  let old := st.currentTaskId
  let st1 :=
    match mapLookup old st.tasks with
    | some t =>
      if t.state = TaskState.Running then
        { st with tasks := mapInsert old { t with state := TaskState.Ready } st.tasks,
                  runQueue := st.runQueue ++ [old] }
      else st
    | none => st
  let r := scheduleLoop st1.tasks st1.runQueue st1.currentTaskId
  { runQueue := r.2.1, tasks := r.1, currentTaskId := r.2.2 }

/-- scheduler::block_current_task: mark the current task Blocked, then
trigger a schedule immediately. -/
def block_current_task (st : SchedState) : SchedState :=
  let st1 :=
    match mapLookup st.currentTaskId st.tasks with
    | some task =>
      { st with tasks :=
          mapInsert st.currentTaskId { task with state := TaskState.Blocked } st.tasks }
    | none => st
  schedule st1

/-- scheduler::get_current_task_tcb: clone of the current TCB, or a dummy
task with minimal capabilities when the current id is not in the table. -/
def get_current_task_tcb (st : SchedState) : TaskControlBlock :=
  match mapLookup st.currentTaskId st.tasks with
  | some t => t
  | none => TaskControlBlock.new st.currentTaskId ("dummy_task") [Capability.LogWrite]

end scheduler

/-- IPC message from kernel/src/ipc/mailbox.rs: sender id plus payload bytes. -/
structure Message where
  sender_task_id : Nat
  data : List Nat
deriving DecidableEq, Repr

/-- MAX_CHANNELS from kernel/src/ipc/mailbox.rs. -/
def MAX_CHANNELS : Nat := 32

/-- A DMA buffer models the Vec backing store by its capacity and length
(contents and machine addresses are not modelled). -/
structure DmaBuf where
  capacity : Nat
  len : Nat
deriving DecidableEq, Repr

/-- DMA statics from kernel/src/arch/x86_64/dma.rs: NEXT_HANDLE and
DMA_BUFFERS. -/
structure DmaState where
  nextHandle : Nat
  buffers : List (Nat × DmaBuf)
deriving DecidableEq, Repr

/-- Whole-kernel state: scheduler statics, the MAILBOXES array (index i is
channel i), DMA statics, the IRQ-to-channel map, the timer tick counter,
and two event logs recording end-of-interrupt acknowledges and copies of
message bytes out to caller buffers. -/
structure KState where
  sched : SchedState
  mailboxes : List (Option (List Message))
  dma : DmaState
  irqMap : List (Nat × Nat)
  ticks : Nat
  ackLog : List Nat
  copyOuts : List (Nat × List Nat)
deriving DecidableEq, Repr

namespace task

/-- task::get_current_task. -/
def get_current_task (ks : KState) : TaskControlBlock :=
  scheduler.get_current_task_tcb ks.sched

/-- task::block_current_on_channel: the channel argument is ignored by the
source (the channel association is not recorded anywhere); the task is just
marked blocked and a schedule is triggered. -/
def block_current_on_channel (ks : KState) (_channel_id : Nat) : KState :=
  { ks with sched := scheduler.block_current_task ks.sched }

/-- task::unblock_task_on_channel: forwards its argument directly to
scheduler::unblock_task as a task id. -/
def unblock_task_on_channel (ks : KState) (task_id : Nat) : KState :=
  { ks with sched := scheduler.unblock_task ks.sched task_id }

end task

namespace mailbox

/-- mailbox::send: reject out-of-range channels; lazily create the mailbox;
push the message at the back; then call task::unblock_task_on_channel with
the channel id.  Returns true for Ok and false for Err. -/
def send (ks : KState) (channel_id sender_task_id : Nat) (data : List Nat) :
    Bool × KState :=
  if MAX_CHANNELS ≤ channel_id then (false, ks)
  else
    let q := match ks.mailboxes.getD channel_id none with
      | none => []
      | some q => q
    let q2 : List Message := q ++ [{ sender_task_id := sender_task_id, data := data }]
    let ks1 := { ks with mailboxes := ks.mailboxes.set channel_id (some q2) }
    (true, task.unblock_task_on_channel ks1 channel_id)

/-- mailbox::recv: reject out-of-range channels; pop the queue head of an
existing mailbox, if any. -/
def recv (ks : KState) (channel_id : Nat) : Option Message × KState :=
  if MAX_CHANNELS ≤ channel_id then (none, ks)
  else
    match ks.mailboxes.getD channel_id none with
    | none => (none, ks)
    | some q => (q.head?, { ks with mailboxes := ks.mailboxes.set channel_id (some q.tail) })

/-- mailbox::peek: non-mutating emptiness test; false for out-of-range
channels and for mailboxes never created. -/
def peek (ks : KState) (channel_id : Nat) : Bool :=
  if MAX_CHANNELS ≤ channel_id then false
  else
    match ks.mailboxes.getD channel_id none with
    | none => false
    | some q => !q.isEmpty

end mailbox

namespace dma

/-- dma::alloc_dma_buffer: the handle is the current NEXT_HANDLE value and
the counter is bumped (fetch_add on an AtomicU64, hence the reduction mod
2 ^ 64); the fresh buffer has the requested capacity and length 0. -/
def alloc_dma_buffer (d : DmaState) (size : Nat) : Option Nat × DmaState :=
  let handle := d.nextHandle
  (some handle,
   { nextHandle := (handle + 1) % 2 ^ 64,
     buffers := mapInsert handle { capacity := size, len := 0 } d.buffers })

/-- dma::free_dma_buffer: remove the entry; freeing an unknown handle only
logs. -/
def free_dma_buffer (d : DmaState) (handle : Nat) : DmaState :=
  { d with buffers := mapErase handle d.buffers }

/-- dma::get_dma_buffer_ptr: Some for live handles, None otherwise.  The
machine address is represented symbolically by the handle itself. -/
def get_dma_buffer_ptr (d : DmaState) (handle : Nat) : Option Nat :=
  (mapLookup handle d.buffers).map (fun _ => handle)

/-- dma::get_dma_buffer_capacity. -/
def get_dma_buffer_capacity (d : DmaState) (handle : Nat) : Option Nat :=
  (mapLookup handle d.buffers).map (fun b => b.capacity)

/-- dma::get_dma_buffer_len. -/
def get_dma_buffer_len (d : DmaState) (handle : Nat) : Option Nat :=
  (mapLookup handle d.buffers).map (fun b => b.len)

/-- dma::set_dma_buffer_len: Ok (true) only when the handle is live and the
new length does not exceed the capacity; otherwise Err (false) with the
state unchanged. -/
def set_dma_buffer_len (d : DmaState) (handle len : Nat) : Bool × DmaState :=
  match mapLookup handle d.buffers with
  | some buf =>
    if len ≤ buf.capacity then
      (true, { d with buffers := mapInsert handle { buf with len := len } d.buffers })
    else (false, d)
  | none => (false, d)

end dma

namespace irq

/-- irq::register_irq_handler: insert the binding, replacing any earlier one
for the same IRQ number. -/
def register_irq_handler (ks : KState) (irq_number channel_id : Nat) : KState :=
  { ks with irqMap := mapInsert irq_number channel_id ks.irqMap }

/-- irq::acknowledge_irq: a platform end-of-interrupt, recorded as an event. -/
def acknowledge_irq (ks : KState) (irq_number : Nat) : KState :=
  { ks with ackLog := ks.ackLog ++ [irq_number] }

/-- irq::handle_irq: when a binding exists, send a one-byte message carrying
the IRQ number with sender id 0 (the send result is discarded); always
acknowledge afterwards. -/
def handle_irq (ks : KState) (irq_number : Nat) : KState :=
  match mapLookup irq_number ks.irqMap with
  | some id => acknowledge_irq (mailbox.send ks id 0 [irq_number]).2 irq_number
  | none => acknowledge_irq ks irq_number

end irq

/-- Syscall return sentinel SUCCESS. -/
def SUCCESS : Nat := 0
/-- Syscall return sentinel E_ERROR. -/
def E_ERROR : Nat := 1
/-- Syscall return sentinel E_ACC_DENIED. -/
def E_ACC_DENIED : Nat := 0xFFFFFFFFFFFFFFFE
/-- Syscall return sentinel E_UNKNOWN_SYSCALL. -/
def E_UNKNOWN_SYSCALL : Nat := 0xFFFFFFFFFFFFFFFF

def SYS_LOG : Nat := 0
def SYS_IPC_SEND : Nat := 1
def SYS_IPC_RECV : Nat := 2
def SYS_BLOCK_ON_CHAN : Nat := 3
def SYS_TIME : Nat := 4
def SYS_IRQ_REGISTER : Nat := 5
def SYS_NET_RX_POLL : Nat := 6
def SYS_NET_ALLOC_BUF : Nat := 7
def SYS_NET_FREE_BUF : Nat := 8
def SYS_NET_TX : Nat := 9
def SYS_IRQ_ACK : Nat := 10
def SYS_GET_DMA_BUF_PTR : Nat := 11
def SYS_SET_DMA_BUF_LEN : Nat := 12
def SYS_IPC_RECV_NONBLOCKING : Nat := 13

/-- Bytes read from caller memory through a raw pointer and length: the
caller memory is modelled as a byte list indexed by address. -/
def readBytes (mem : List Nat) (ptr len : Nat) : List Nat :=
  (List.range len).map (fun i => mem.getD (ptr + i) 0)

/-- True when a byte is a UTF-8 continuation byte. -/
def isCont (b : Nat) : Bool := 0x80 ≤ b && b ≤ 0xBF

/-- Validity check performed by str::from_utf8 on the logged bytes. -/
def isValidUtf8 : List Nat → Bool
  | [] => true
  | b :: rest =>
    if b ≤ 0x7F then isValidUtf8 rest
    else if 0xC2 ≤ b && b ≤ 0xDF then
      match rest with
      | b1 :: rest2 => isCont b1 && isValidUtf8 rest2
      | [] => false
    else if b = 0xE0 then
      match rest with
      | b1 :: b2 :: rest2 => (0xA0 ≤ b1 && b1 ≤ 0xBF) && isCont b2 && isValidUtf8 rest2
      | _ => false
    else if (0xE1 ≤ b && b ≤ 0xEC) || b = 0xEE || b = 0xEF then
      match rest with
      | b1 :: b2 :: rest2 => isCont b1 && isCont b2 && isValidUtf8 rest2
      | _ => false
    else if b = 0xED then
      match rest with
      | b1 :: b2 :: rest2 => (0x80 ≤ b1 && b1 ≤ 0x9F) && isCont b2 && isValidUtf8 rest2
      | _ => false
    else if b = 0xF0 then
      match rest with
      | b1 :: b2 :: b3 :: rest2 =>
        (0x90 ≤ b1 && b1 ≤ 0xBF) && isCont b2 && isCont b3 && isValidUtf8 rest2
      | _ => false
    else if 0xF1 ≤ b && b ≤ 0xF3 then
      match rest with
      | b1 :: b2 :: b3 :: rest2 => isCont b1 && isCont b2 && isCont b3 && isValidUtf8 rest2
      | _ => false
    else if b = 0xF4 then
      match rest with
      | b1 :: b2 :: b3 :: rest2 =>
        (0x80 ≤ b1 && b1 ≤ 0x8F) && isCont b2 && isCont b3 && isValidUtf8 rest2
      | _ => false
    else false
termination_by l => l.length
decreasing_by all_goals simp_all <;> omega

/-- The simulated RX packet in the SYS_NET_RX_POLL branch is 98 bytes long;
only its length matters to the dispatcher control flow. -/
def RX_PACKET_LEN : Nat := 98

/-- syscall_dispatch from kernel/syscall.rs as a state transformer.  The
caller memory backing raw pointers is passed as a byte list; copies of
message bytes out to a caller buffer are recorded in the copyOuts event
log instead of mutating that memory. -/
def syscall_dispatch (ks : KState) (mem : List Nat) (n a1 a2 a3 : Nat) :
    Nat × KState :=
  let current_task := task.get_current_task ks
  if n = SYS_LOG then
    if !current_task.capabilities.any (fun cap => cap == Capability.LogWrite) then
      (E_ACC_DENIED, ks)
    else
      let msg := readBytes mem a1 a2
      if isValidUtf8 msg then (SUCCESS, ks) else (E_ERROR, ks)
  else if n = SYS_IPC_SEND then
    if !current_task.capabilities.any (fun cap => cap == Capability.IpcManage) then
      (E_ACC_DENIED, ks)
    else
      let channel_id := a1 % 2 ^ 32
      let buf := readBytes mem a2 a3
      let r := mailbox.send ks channel_id current_task.id buf
      if r.1 then (SUCCESS, r.2) else (E_ERROR, r.2)
  else if n = SYS_IPC_RECV ∨ n = SYS_IPC_RECV_NONBLOCKING then
    if !current_task.capabilities.any (fun cap => cap == Capability.IpcManage) then
      (E_ACC_DENIED, ks)
    else
      let channel_id := a1 % 2 ^ 32
      let out_ptr := a2
      let out_cap := a3
      if n = SYS_IPC_RECV ∧ mailbox.peek ks channel_id = false then
        -- blocking receive on an empty mailbox: block, reschedule, report 0
        (SUCCESS, task.block_current_on_channel ks channel_id)
      else
        let r := mailbox.recv ks channel_id
        match r.1 with
        | some data =>
          if data.data.length ≤ out_cap then
            (data.data.length,
             { r.2 with copyOuts := r.2.copyOuts ++ [(out_ptr, data.data)] })
          else (E_ERROR, r.2)
        | none => (SUCCESS, r.2)
  else if n = SYS_BLOCK_ON_CHAN then
    -- note: this branch performs no capability check in the source
    (SUCCESS, task.block_current_on_channel ks (a1 % 2 ^ 32))
  else if n = SYS_TIME then
    if !current_task.capabilities.any (fun cap => cap == Capability.TimeRead) then
      (E_ACC_DENIED, ks)
    else (ks.ticks, ks)
  else if n = SYS_IRQ_REGISTER then
    let irq_num := a1 % 2 ^ 8
    let channel_id := a2 % 2 ^ 32
    if !current_task.capabilities.any
        (fun cap => cap == Capability.IrqRegister irq_num || cap == Capability.NetworkAccess) then
      (E_ACC_DENIED, ks)
    else (SUCCESS, irq.register_irq_handler ks irq_num channel_id)
  else if n = SYS_NET_RX_POLL then
    if !current_task.capabilities.any (fun cap => cap == Capability.NetworkAccess) then
      (E_ACC_DENIED, ks)
    else
      let dma_handle := a2
      let out_cap := a3
      if RX_PACKET_LEN ≤ out_cap then
        match dma.get_dma_buffer_ptr ks.dma dma_handle with
        | some _ =>
          let r := dma.set_dma_buffer_len ks.dma dma_handle RX_PACKET_LEN
          if r.1 then (RX_PACKET_LEN, { ks with dma := r.2 })
          else (E_ERROR, { ks with dma := r.2 })
        | none => (E_ERROR, ks)
      else (E_ERROR, ks)
  else if n = SYS_NET_ALLOC_BUF then
    if !current_task.capabilities.any
        (fun cap => cap == Capability.DmaAlloc || cap == Capability.NetworkAccess) then
      (E_ACC_DENIED, ks)
    else
      let r := dma.alloc_dma_buffer ks.dma a1
      match r.1 with
      | some handle => (handle, { ks with dma := r.2 })
      | none => (E_ERROR, { ks with dma := r.2 })
  else if n = SYS_NET_FREE_BUF then
    if !current_task.capabilities.any
        (fun cap => cap == Capability.DmaAlloc || cap == Capability.NetworkAccess) then
      (E_ACC_DENIED, ks)
    else (SUCCESS, { ks with dma := dma.free_dma_buffer ks.dma a1 })
  else if n = SYS_NET_TX then
    if !current_task.capabilities.any (fun cap => cap == Capability.NetworkAccess) then
      (E_ACC_DENIED, ks)
    else (SUCCESS, ks)
  else if n = SYS_IRQ_ACK then
    let irq_num := a1 % 2 ^ 8
    if !current_task.capabilities.any
        (fun cap => cap == Capability.IrqAck irq_num || cap == Capability.NetworkAccess) then
      (E_ACC_DENIED, ks)
    else (SUCCESS, irq.acknowledge_irq ks irq_num)
  else if n = SYS_GET_DMA_BUF_PTR then
    if !current_task.capabilities.any
        (fun cap => cap == Capability.DmaAccess || cap == Capability.NetworkAccess) then
      (E_ACC_DENIED, ks)
    else
      match dma.get_dma_buffer_ptr ks.dma a1 with
      | some p => (p, ks)
      | none => (E_ERROR, ks)
  else if n = SYS_SET_DMA_BUF_LEN then
    if !current_task.capabilities.any
        (fun cap => cap == Capability.DmaAccess || cap == Capability.NetworkAccess) then
      (E_ACC_DENIED, ks)
    else
      let r := dma.set_dma_buffer_len ks.dma a1 a2
      if r.1 then (SUCCESS, { ks with dma := r.2 })
      else (E_ERROR, { ks with dma := r.2 })
  else (E_UNKNOWN_SYSCALL, ks)

/-- Kernel state right after boot initialisation: scheduler init has run
(kernel task 0 exists and is current), all mailboxes are absent, the DMA
handle counter starts at 1, no IRQ bindings, zero ticks, empty event logs. -/
def bootState : KState :=
  { sched := scheduler.init,
    mailboxes := List.replicate MAX_CHANNELS none,
    dma := { nextHandle := 1, buffers := [] },
    irqMap := [],
    ticks := 0,
    ackLog := [],
    copyOuts := [] }

/-! Basic lemmas about the association-list map operations and about list
update, shared by the theorems below. -/

theorem mapLookup_mapInsert_self {α : Type} (k : Nat) (v : α) (l : List (Nat × α)) :
    mapLookup k (mapInsert k v l) = some v := by
  induction l with
  | nil => simp [mapInsert, mapLookup]
  | cons p t ih =>
    by_cases h : p.1 = k
    · simp [mapInsert, mapLookup, h]
    · simp [mapInsert, mapLookup, h, ih]

theorem mapLookup_mapInsert_ne {α : Type} (k j : Nat) (v : α) (l : List (Nat × α))
    (h : k ≠ j) : mapLookup k (mapInsert j v l) = mapLookup k l := by
  induction l with
  | nil => simp [mapInsert, mapLookup, Ne.symm h]
  | cons p t ih =>
    by_cases hp : p.1 = j
    · simp [mapInsert, mapLookup, hp, Ne.symm h]
    · by_cases hk : p.1 = k <;> simp [mapInsert, mapLookup, hp, hk, h, Ne.symm h, ih]

theorem mapLookup_mapErase_self {α : Type} (k : Nat) (l : List (Nat × α)) :
    mapLookup k (mapErase k l) = none := by
  induction l with
  | nil => simp [mapErase, mapLookup]
  | cons p t ih =>
    by_cases h : p.1 = k
    · simpa [mapErase, mapLookup, h] using ih
    · simpa [mapErase, mapLookup, h] using ih

theorem mapLookup_none_of_forall_lt {α : Type} (k : Nat) (l : List (Nat × α))
    (h : ∀ p ∈ l, p.1 < k) : mapLookup k l = none := by
  induction l with
  | nil => rfl
  | cons p t ih =>
    have hp := h p (List.mem_cons_self p t)
    have : p.1 ≠ k := Nat.ne_of_lt hp
    simp only [mapLookup, this, if_false]
    exact ih (fun q hq => h q (List.mem_cons_of_mem p hq))

theorem mem_mapInsert {α : Type} (p : Nat × α) (k : Nat) (v : α) (l : List (Nat × α))
    (h : p ∈ mapInsert k v l) : p = (k, v) ∨ p ∈ l := by
  induction l with
  | nil => simpa [mapInsert] using h
  | cons q t ih =>
    by_cases hq : q.1 = k
    · simp only [mapInsert, hq, if_true] at h
      rcases List.mem_cons.mp h with h1 | h2
      · exact Or.inl h1
      · exact Or.inr (List.mem_cons_of_mem q h2)
    · simp only [mapInsert, hq, if_false] at h
      rcases List.mem_cons.mp h with h1 | h2
      · exact Or.inr (h1 ▸ List.mem_cons_self q t)
      · rcases ih h2 with h3 | h4
        · exact Or.inl h3
        · exact Or.inr (List.mem_cons_of_mem q h4)

theorem getD_set_self {α : Type} :
    ∀ (l : List α) (i : Nat) (a d : α), i < l.length → (l.set i a).getD i d = a
  | [], i, _, _, h => absurd h (by simp)
  | _ :: _, 0, _, _, _ => rfl
  | _ :: t, i + 1, a, d, h => getD_set_self t i a d (by simpa using h)

theorem getD_set_ne {α : Type} :
    ∀ (l : List α) (i j : Nat) (a d : α), i ≠ j → (l.set i a).getD j d = l.getD j d
  | [], _, _, _, _, _ => rfl
  | _ :: _, 0, 0, _, _, h => absurd rfl h
  | _ :: _, 0, _ + 1, _, _, _ => rfl
  | _ :: _, _ + 1, 0, _, _, _ => rfl
  | _ :: t, i + 1, j + 1, a, d, h =>
    getD_set_ne t i j a d (fun hij => h (by simpa using hij))

/-- Claim C1 run, step one: a user task (id 7, capability IpcManage) is
created and scheduled, becoming current and Running. -/
def ksWithRx : KState :=
  let s :=
    scheduler.schedule
      (scheduler.add_task bootState.sched
        (TaskControlBlock.new 7 ("rx") [Capability.IpcManage]))
  { bootState with sched := s }

/-- Claim C1 run, step two: task 7 issues a blocking receive on the empty
channel 5 and is marked Blocked. -/
def ksRxBlocked : KState := (syscall_dispatch ksWithRx [] SYS_IPC_RECV 5 100 64).2

/-- C1: a task Blocked after a blocking receive on channel 5 is NOT
unblocked by a subsequent send on channel 5.  The send succeeds and records
the message, but the task record holds no blocked-on channel, and
mailbox::send hands the channel id to scheduler::unblock_task in the
position of a task id, so task 7 stays Blocked and the ready queue stays
empty. -/
theorem send_on_blocked_channel_leaves_receiver_blocked :
    ((mapLookup 7 ksRxBlocked.sched.tasks).map (fun t => t.state)
        = some TaskState.Blocked)
    ∧ (mailbox.send ksRxBlocked 5 1 [0xAA]).1 = true
    ∧ ((mailbox.send ksRxBlocked 5 1 [0xAA]).2.mailboxes.getD 5 none
        = some [{ sender_task_id := 1, data := [0xAA] }])
    ∧ ((mapLookup 7 (mailbox.send ksRxBlocked 5 1 [0xAA]).2.sched.tasks).map
          (fun t => t.state) = some TaskState.Blocked)
    ∧ (mailbox.send ksRxBlocked 5 1 [0xAA]).2.sched.runQueue = [] := by
  decide

/-- A task holding only the LogWrite capability, in state Running. -/
def lowTcb : TaskControlBlock :=
  { id := 1, name := "lowcap", state := TaskState.Running,
    capabilities := [Capability.LogWrite] }

/-- A state whose current task (id 1) is Running and holds only LogWrite. -/
def ksLow : KState :=
  let s : SchedState :=
    { runQueue := [], tasks := mapInsert 1 lowTcb scheduler.init.tasks,
      currentTaskId := 1 }
  { bootState with sched := s }

/-- C3 counterexample: SYS_BLOCK_ON_CHAN performs no capability check.  A
current task lacking IpcManage gets SUCCESS, not E_ACC_DENIED, and the
dispatch has a side effect: the caller is marked Blocked. -/
theorem sys_block_on_chan_skips_capability_check :
    ((task.get_current_task ksLow).capabilities.any
        (fun cap => cap == Capability.IpcManage) = false)
    ∧ (syscall_dispatch ksLow [] SYS_BLOCK_ON_CHAN 5 0 0).1 = SUCCESS
    ∧ (syscall_dispatch ksLow [] SYS_BLOCK_ON_CHAN 5 0 0).1 ≠ E_ACC_DENIED
    ∧ (syscall_dispatch ksLow [] SYS_BLOCK_ON_CHAN 5 0 0).2 ≠ ksLow
    ∧ ((mapLookup 1 (syscall_dispatch ksLow [] SYS_BLOCK_ON_CHAN 5 0 0).2.sched.tasks).map
          (fun t => t.state) = some TaskState.Blocked) := by
  decide

/-- C4 counterexample: for the out-of-range channel 32 the receive syscalls
do not report an error.  The non-blocking receive returns SUCCESS with the
state untouched, and the blocking receive returns SUCCESS after blocking
the caller (kernel task 0, which holds IpcManage). -/
theorem recv_syscall_out_of_range_returns_success :
    (syscall_dispatch bootState [] SYS_IPC_RECV_NONBLOCKING 32 100 64)
        = (SUCCESS, bootState)
    ∧ SUCCESS ≠ E_ERROR
    ∧ (syscall_dispatch bootState [] SYS_IPC_RECV 32 100 64).1 = SUCCESS
    ∧ ((mapLookup 0 (syscall_dispatch bootState [] SYS_IPC_RECV 32 100 64).2.sched.tasks).map
          (fun t => t.state) = some TaskState.Blocked) := by
  decide

/-- State with IRQ 5 most recently bound to the out-of-range channel 40. -/
def ksIrq40 : KState := irq.register_irq_handler bootState 5 40

/-- C8 counterexample: when the most recent registration binds IRQ 5 to
channel 40 (out of range), handling IRQ 5 enqueues no message on any
channel — the kernel send fails silently — though the ack is still issued. -/
theorem irq_bound_out_of_range_channel_drops_message :
    mapLookup 5 ksIrq40.irqMap = some 40
    ∧ (irq.handle_irq ksIrq40 5).mailboxes = ksIrq40.mailboxes
    ∧ (irq.handle_irq ksIrq40 5).ackLog = ksIrq40.ackLog ++ [5] := by
  decide

/-- C9 counterexample: right after scheduler init the kernel task (id 0) is
in state Ready, not Running, and its capability list does not contain every
capability (IrqRegister 1 is absent, only IrqRegister 0 is granted). -/
theorem kernel_task_initial_state_not_running :
    ((mapLookup 0 scheduler.init.tasks).map (fun t => t.state) = some TaskState.Ready)
    ∧ TaskState.Ready ≠ TaskState.Running
    ∧ ((mapLookup 0 scheduler.init.tasks).map
          (fun t => t.capabilities.contains (Capability.IrqRegister 1)) = some false) := by
  decide

/-- C9 as amended: after scheduler init exactly one task exists; it has id
0, name kernel, the fixed boot capability grant (every value-less
capability plus IrqRegister 0 and IrqAck 0), state Ready, and it is the
current task while the run queue is empty. -/
theorem scheduler_init_state :
    scheduler.init.tasks
        = [(0, { id := 0, name := "kernel", state := TaskState.Ready,
                 capabilities := kernelTaskCaps })]
    ∧ scheduler.init.currentTaskId = 0
    ∧ scheduler.init.runQueue = [] := by
  decide

/-- C10: the first DMA allocation returns handle 1 (the initial value of
the handle counter), so the SYS_NET_ALLOC_BUF success return for it equals
the generic error sentinel E_ERROR and the caller cannot tell the
successful allocation from a failure; the allocation did in fact succeed. -/
theorem first_dma_handle_collides_with_e_error :
    (dma.alloc_dma_buffer bootState.dma 1536).1 = some 1
    ∧ (syscall_dispatch bootState [] SYS_NET_ALLOC_BUF 1536 0 0).1 = E_ERROR
    ∧ dma.get_dma_buffer_capacity
        (syscall_dispatch bootState [] SYS_NET_ALLOC_BUF 1536 0 0).2.dma 1 = some 1536 := by
  decide

/-- The capability test each syscall branch performs before any work, read
off branch by branch from syscall_dispatch: LOG needs LogWrite; the IPC
send and receive syscalls need IpcManage; BLOCK_ON_CHAN checks nothing;
TIME needs TimeRead; IRQ_REGISTER needs IrqRegister(a1 as u8) or
NetworkAccess; NET_RX_POLL and NET_TX need NetworkAccess; NET_ALLOC_BUF and
NET_FREE_BUF need DmaAlloc or NetworkAccess; IRQ_ACK needs IrqAck(a1 as u8)
or NetworkAccess; GET_DMA_BUF_PTR and SET_DMA_BUF_LEN need DmaAccess or
NetworkAccess. -/
def requiredCapHolds (t : TaskControlBlock) (n a1 : Nat) : Bool :=
  if n = SYS_LOG then
    t.capabilities.any (fun cap => cap == Capability.LogWrite)
  else if n = SYS_IPC_SEND ∨ n = SYS_IPC_RECV ∨ n = SYS_IPC_RECV_NONBLOCKING then
    t.capabilities.any (fun cap => cap == Capability.IpcManage)
  else if n = SYS_BLOCK_ON_CHAN then true
  else if n = SYS_TIME then
    t.capabilities.any (fun cap => cap == Capability.TimeRead)
  else if n = SYS_IRQ_REGISTER then
    t.capabilities.any
      (fun cap => cap == Capability.IrqRegister (a1 % 2 ^ 8) || cap == Capability.NetworkAccess)
  else if n = SYS_NET_RX_POLL ∨ n = SYS_NET_TX then
    t.capabilities.any (fun cap => cap == Capability.NetworkAccess)
  else if n = SYS_NET_ALLOC_BUF ∨ n = SYS_NET_FREE_BUF then
    t.capabilities.any
      (fun cap => cap == Capability.DmaAlloc || cap == Capability.NetworkAccess)
  else if n = SYS_IRQ_ACK then
    t.capabilities.any
      (fun cap => cap == Capability.IrqAck (a1 % 2 ^ 8) || cap == Capability.NetworkAccess)
  else if n = SYS_GET_DMA_BUF_PTR ∨ n = SYS_SET_DMA_BUF_LEN then
    t.capabilities.any
      (fun cap => cap == Capability.DmaAccess || cap == Capability.NetworkAccess)
  else true

/-- C3 as amended: for every syscall number in the ABI table other than
SYS_BLOCK_ON_CHAN (which performs no capability check at all), a current
task lacking the capability the branch requires gets E_ACC_DENIED and the
kernel state is completely unchanged: no task, mailbox, DMA or IRQ-binding
change and no event. -/
theorem syscall_capability_denial_no_side_effects
    (ks : KState) (mem : List Nat) (n a1 a2 a3 : Nat)
    (hn : n < 14) (hb : n ≠ SYS_BLOCK_ON_CHAN)
    (h : requiredCapHolds (task.get_current_task ks) n a1 = false) :
    syscall_dispatch ks mem n a1 a2 a3 = (E_ACC_DENIED, ks) := by
  interval_cases n <;>
    simp_all [requiredCapHolds, syscall_dispatch, SYS_LOG, SYS_IPC_SEND, SYS_IPC_RECV,
      SYS_BLOCK_ON_CHAN, SYS_TIME, SYS_IRQ_REGISTER, SYS_NET_RX_POLL, SYS_NET_ALLOC_BUF,
      SYS_NET_FREE_BUF, SYS_NET_TX, SYS_IRQ_ACK, SYS_GET_DMA_BUF_PTR, SYS_SET_DMA_BUF_LEN,
      SYS_IPC_RECV_NONBLOCKING]

/-- Witness for the capability-denial theorem: the concrete low-capability
task issuing SYS_IPC_SEND is denied with the state unchanged. -/
theorem syscall_capability_denial_witness :
    syscall_dispatch ksLow [] SYS_IPC_SEND 0 0 0 = (E_ACC_DENIED, ksLow) :=
  syscall_capability_denial_no_side_effects ksLow [] SYS_IPC_SEND 0 0 0
    (by decide) (by decide) (by decide)

/-- C4 as amended: a channel id at or beyond IPC_CHANNEL_COUNT (32) is
rejected at the mailbox layer (send fails leaving the state unchanged,
recv yields nothing, peek is false), and at the syscall layer the send
syscall returns E_ERROR; the receive syscalls however do not report an
error: the non-blocking receive returns SUCCESS (0) treating the channel
as empty, and the blocking receive blocks the caller and returns SUCCESS. -/
theorem out_of_range_channel_spec
    (ks : KState) (mem : List Nat) (c s ptr cap : Nat) (d : List Nat)
    (hc : MAX_CHANNELS ≤ c) (hlt : c < 2 ^ 32)
    (hkap : (task.get_current_task ks).capabilities.any
      (fun x => x == Capability.IpcManage) = true) :
    mailbox.send ks c s d = (false, ks)
    ∧ mailbox.recv ks c = (none, ks)
    ∧ mailbox.peek ks c = false
    ∧ (∀ a2 a3, syscall_dispatch ks mem SYS_IPC_SEND c a2 a3 = (E_ERROR, ks))
    ∧ syscall_dispatch ks mem SYS_IPC_RECV_NONBLOCKING c ptr cap = (SUCCESS, ks)
    ∧ syscall_dispatch ks mem SYS_IPC_RECV c ptr cap
        = (SUCCESS, task.block_current_on_channel ks c) := by
  have hlt2 : c < 4294967296 := by norm_num at hlt; exact hlt
  have hmod : c % 4294967296 = c := Nat.mod_eq_of_lt hlt2
  refine ⟨?_, ?_, ?_, ?_, ?_, ?_⟩
  · simp [mailbox.send, hc]
  · simp [mailbox.recv, hc]
  · simp [mailbox.peek, hc]
  · intro a2 a3
    simp [syscall_dispatch, SYS_IPC_SEND, SYS_LOG, hkap, hmod, mailbox.send, hc]
  · simp [syscall_dispatch, SYS_IPC_RECV_NONBLOCKING, SYS_LOG, SYS_IPC_SEND, SYS_IPC_RECV,
      hkap, hmod, mailbox.recv, hc]
  · simp [syscall_dispatch, SYS_IPC_RECV, SYS_LOG, SYS_IPC_SEND, hkap, hmod,
      mailbox.peek, hc]

/-- Witness for the out-of-range channel theorem at channel 32 from the
boot state. -/
theorem out_of_range_channel_spec_witness :
    mailbox.send bootState 32 1 [7] = (false, bootState)
    ∧ mailbox.recv bootState 32 = (none, bootState)
    ∧ mailbox.peek bootState 32 = false
    ∧ (∀ a2 a3, syscall_dispatch bootState [] SYS_IPC_SEND 32 a2 a3 = (E_ERROR, bootState))
    ∧ syscall_dispatch bootState [] SYS_IPC_RECV_NONBLOCKING 32 100 64 = (SUCCESS, bootState)
    ∧ syscall_dispatch bootState [] SYS_IPC_RECV 32 100 64
        = (SUCCESS, task.block_current_on_channel bootState 32) :=
  out_of_range_channel_spec bootState [] 32 1 100 64 [7]
    (by decide) (by decide) (by decide)

/-- Handle-freshness invariant of the DMA registry: every live handle is
below the counter, and the counter starts at 1 and stays positive. -/
def DmaInv (d : DmaState) : Prop :=
  (∀ p ∈ d.buffers, p.1 < d.nextHandle) ∧ 1 ≤ d.nextHandle

/-- C6: allocating a buffer of size s returns the current counter value as
handle, with capacity s and length 0; the handle is fresh (never live
before); the counter advances by one, so the next allocation returns a
different handle; after free, the pointer, length and capacity accessors
all return none; the freshness invariant is preserved. -/
theorem dma_alloc_free_lifecycle (d : DmaState) (s s2 : Nat)
    (hinv : DmaInv d) (hw : d.nextHandle + 1 < 2 ^ 64) :
    (dma.alloc_dma_buffer d s).1 = some d.nextHandle
    ∧ dma.get_dma_buffer_capacity (dma.alloc_dma_buffer d s).2 d.nextHandle = some s
    ∧ dma.get_dma_buffer_len (dma.alloc_dma_buffer d s).2 d.nextHandle = some 0
    ∧ mapLookup d.nextHandle d.buffers = none
    ∧ (dma.alloc_dma_buffer d s).2.nextHandle = d.nextHandle + 1
    ∧ dma.get_dma_buffer_ptr
        (dma.free_dma_buffer (dma.alloc_dma_buffer d s).2 d.nextHandle) d.nextHandle = none
    ∧ dma.get_dma_buffer_len
        (dma.free_dma_buffer (dma.alloc_dma_buffer d s).2 d.nextHandle) d.nextHandle = none
    ∧ dma.get_dma_buffer_capacity
        (dma.free_dma_buffer (dma.alloc_dma_buffer d s).2 d.nextHandle) d.nextHandle = none
    ∧ (dma.alloc_dma_buffer (dma.alloc_dma_buffer d s).2 s2).1 = some (d.nextHandle + 1)
    ∧ d.nextHandle + 1 ≠ d.nextHandle
    ∧ DmaInv (dma.alloc_dma_buffer d s).2 := by
  have hw2 : d.nextHandle + 1 < 18446744073709551616 := by norm_num at hw; exact hw
  have hmod : (d.nextHandle + 1) % 18446744073709551616 = d.nextHandle + 1 :=
    Nat.mod_eq_of_lt hw2
  refine ⟨rfl, ?_, ?_, ?_, ?_, ?_, ?_, ?_, ?_, by omega, ?_, ?_⟩
  · simp [dma.get_dma_buffer_capacity, dma.alloc_dma_buffer, mapLookup_mapInsert_self]
  · simp [dma.get_dma_buffer_len, dma.alloc_dma_buffer, mapLookup_mapInsert_self]
  · exact mapLookup_none_of_forall_lt _ _ hinv.1
  · simp [dma.alloc_dma_buffer, hmod]
  · simp [dma.get_dma_buffer_ptr, dma.free_dma_buffer, mapLookup_mapErase_self]
  · simp [dma.get_dma_buffer_len, dma.free_dma_buffer, mapLookup_mapErase_self]
  · simp [dma.get_dma_buffer_capacity, dma.free_dma_buffer, mapLookup_mapErase_self]
  · simp [dma.alloc_dma_buffer, hmod]
  · intro p hp
    have hp2 : p ∈ mapInsert d.nextHandle { capacity := s, len := 0 } d.buffers := by
      simpa [dma.alloc_dma_buffer] using hp
    have hlt : p.1 < d.nextHandle + 1 := by
      rcases mem_mapInsert p d.nextHandle _ d.buffers hp2 with h1 | h2
      · simp [h1]
      · have := hinv.1 p h2
        omega
    simpa [dma.alloc_dma_buffer, hmod] using hlt
  · simp [dma.alloc_dma_buffer, hmod]
    try omega

/-- Witness for the DMA lifecycle theorem at the boot DMA state. -/
theorem dma_alloc_free_lifecycle_witness :
    (dma.alloc_dma_buffer bootState.dma 1536).1 = some bootState.dma.nextHandle
    ∧ dma.get_dma_buffer_capacity (dma.alloc_dma_buffer bootState.dma 1536).2
        bootState.dma.nextHandle = some 1536
    ∧ dma.get_dma_buffer_ptr
        (dma.free_dma_buffer (dma.alloc_dma_buffer bootState.dma 1536).2
          bootState.dma.nextHandle) bootState.dma.nextHandle = none :=
  have h := dma_alloc_free_lifecycle bootState.dma 1536 64
    (by constructor <;> simp [bootState]) (by norm_num [bootState])
  ⟨h.1, h.2.1, h.2.2.2.2.2.1⟩

/-- Length-bounded-by-capacity invariant of the DMA registry. -/
def DmaLenInv (d : DmaState) : Prop :=
  ∀ p ∈ d.buffers, p.2.len ≤ p.2.capacity

/-- C7: set_dma_buffer_len on a live handle succeeds exactly when the new
length is at most the capacity (so capacity + 1 fails); on success the
length accessor reports the new length and the capacity is unchanged; on
failure, and on an unknown handle, the registry is unchanged; and the
length-at-most-capacity invariant is preserved by set_len, alloc and free,
so it holds for every handle between alloc and free. -/
theorem dma_set_len_spec (d : DmaState) (h n : Nat) :
    (∀ buf, mapLookup h d.buffers = some buf →
        ((dma.set_dma_buffer_len d h n).1 = true ↔ n ≤ buf.capacity)
        ∧ (n ≤ buf.capacity →
            dma.get_dma_buffer_len (dma.set_dma_buffer_len d h n).2 h = some n
            ∧ dma.get_dma_buffer_capacity (dma.set_dma_buffer_len d h n).2 h
                = some buf.capacity)
        ∧ (buf.capacity < n → dma.set_dma_buffer_len d h n = (false, d)))
    ∧ (mapLookup h d.buffers = none → dma.set_dma_buffer_len d h n = (false, d))
    ∧ (DmaLenInv d → DmaLenInv (dma.set_dma_buffer_len d h n).2)
    ∧ (∀ s, DmaLenInv d → DmaLenInv (dma.alloc_dma_buffer d s).2)
    ∧ (∀ h2, DmaLenInv d → DmaLenInv (dma.free_dma_buffer d h2)) := by
  refine ⟨?_, ?_, ?_, ?_, ?_⟩
  · intro buf hbuf
    refine ⟨?_, ?_, ?_⟩
    · constructor
      · intro hok
        by_contra hgt
        simp [dma.set_dma_buffer_len, hbuf, hgt] at hok
      · intro hle
        simp [dma.set_dma_buffer_len, hbuf, hle]
    · intro hle
      constructor
      · simp [dma.set_dma_buffer_len, hbuf, hle, dma.get_dma_buffer_len,
          mapLookup_mapInsert_self]
      · simp [dma.set_dma_buffer_len, hbuf, hle, dma.get_dma_buffer_capacity,
          mapLookup_mapInsert_self]
    · intro hgt
      simp [dma.set_dma_buffer_len, hbuf, Nat.not_le.mpr hgt]
  · intro hnone
    simp [dma.set_dma_buffer_len, hnone]
  · intro hlen
    match hbuf : mapLookup h d.buffers with
    | none => simpa [dma.set_dma_buffer_len, hbuf] using hlen
    | some buf =>
      by_cases hle : n ≤ buf.capacity
      · simp only [dma.set_dma_buffer_len, hbuf, hle, if_true]
        intro p hp
        rcases mem_mapInsert p h _ d.buffers hp with h1 | h2
        · simp [h1, hle]
        · exact hlen p h2
      · simpa [dma.set_dma_buffer_len, hbuf, hle] using hlen
  · intro s hlen p hp
    rcases mem_mapInsert p d.nextHandle _ d.buffers
      (by simpa [dma.alloc_dma_buffer] using hp) with h1 | h2
    · simp [h1]
    · exact hlen p h2
  · intro h2 hlen p hp
    exact hlen p (List.mem_of_mem_filter hp)

/-- A DMA registry holding one live buffer: handle 1, capacity 8, length 0. -/
def dmaOneBuf : DmaState :=
  { nextHandle := 2, buffers := [(1, { capacity := 8, len := 0 })] }

/-- Witness for the set_len theorem: on a registry holding handle 1 with
capacity 8 and length 0, set_len to 5 succeeds and the length reads back 5,
while set_len to 9 (capacity + 1) fails leaving the registry unchanged. -/
theorem dma_set_len_spec_witness :
    (dma.set_dma_buffer_len dmaOneBuf 1 5).1 = true
    ∧ dma.get_dma_buffer_len (dma.set_dma_buffer_len dmaOneBuf 1 5).2 1 = some 5
    ∧ dma.set_dma_buffer_len dmaOneBuf 1 9 = (false, dmaOneBuf) :=
  have h5 := dma_set_len_spec dmaOneBuf 1 5
  have h9 := dma_set_len_spec dmaOneBuf 1 9
  ⟨((h5.1 { capacity := 8, len := 0 } (by decide)).1).mpr (by decide),
   ((h5.1 { capacity := 8, len := 0 } (by decide)).2.1 (by decide)).1,
   (h9.1 { capacity := 8, len := 0 } (by decide)).2.2 (by decide)⟩

/-- The queue of messages currently held for a channel (empty both for a
never-created mailbox and for a drained one). -/
def queueOf (ks : KState) (c : Nat) : List Message :=
  (ks.mailboxes.getD c none).getD []

theorem mailbox_send_fst (ks : KState) (c s : Nat) (d : List Nat)
    (hc : c < MAX_CHANNELS) : (mailbox.send ks c s d).1 = true := by
  rcases hq : ks.mailboxes.getD c none with _ | q <;>
    simp [mailbox.send, hq, Nat.not_le.mpr hc]

theorem mailbox_send_mailboxes (ks : KState) (c s : Nat) (d : List Nat)
    (hc : c < MAX_CHANNELS) :
    (mailbox.send ks c s d).2.mailboxes
      = ks.mailboxes.set c (some (queueOf ks c ++ [{ sender_task_id := s, data := d }])) := by
  rcases hq : ks.mailboxes.getD c none with _ | q <;>
    simp only [List.getD_eq_getElem?_getD] at hq <;>
    simp [mailbox.send, task.unblock_task_on_channel, queueOf, hq, Nat.not_le.mpr hc]

theorem mailbox_send_ackLog (ks : KState) (c s : Nat) (d : List Nat) :
    (mailbox.send ks c s d).2.ackLog = ks.ackLog := by
  by_cases hc : MAX_CHANNELS ≤ c <;>
    simp [mailbox.send, task.unblock_task_on_channel, hc]

theorem mailbox_send_length (ks : KState) (c s : Nat) (d : List Nat) :
    (mailbox.send ks c s d).2.mailboxes.length = ks.mailboxes.length := by
  by_cases hc : MAX_CHANNELS ≤ c <;>
    simp [mailbox.send, task.unblock_task_on_channel, hc]

theorem mailbox_send_out_of_range (ks : KState) (c s : Nat) (d : List Nat)
    (hc : MAX_CHANNELS ≤ c) : mailbox.send ks c s d = (false, ks) := by
  simp [mailbox.send, hc]

/-- C8 as amended: when the most recent registration bound IRQ n to an
in-range channel c, handling IRQ n appends exactly one message with payload
[n] and kernel sender id 0 to channel c, touches no other channel, and
issues exactly one acknowledge of n; when the bound channel is out of range
the kernel send fails silently and only the acknowledge happens; unbound
IRQs are acknowledged with no delivery at all; a later registration for
the same IRQ replaces the earlier binding. -/
theorem irq_delivery_spec (ks : KState) (n : Nat)
    (hlen : ks.mailboxes.length = MAX_CHANNELS) :
    (∀ c, mapLookup n ks.irqMap = some c → c < MAX_CHANNELS →
        queueOf (irq.handle_irq ks n) c
            = queueOf ks c ++ [{ sender_task_id := 0, data := [n] }]
        ∧ (∀ c2, c2 ≠ c → queueOf (irq.handle_irq ks n) c2 = queueOf ks c2)
        ∧ (irq.handle_irq ks n).ackLog = ks.ackLog ++ [n])
    ∧ (∀ c, mapLookup n ks.irqMap = some c → MAX_CHANNELS ≤ c →
        (irq.handle_irq ks n).mailboxes = ks.mailboxes
        ∧ (irq.handle_irq ks n).ackLog = ks.ackLog ++ [n])
    ∧ (mapLookup n ks.irqMap = none →
        (irq.handle_irq ks n).mailboxes = ks.mailboxes
        ∧ (irq.handle_irq ks n).ackLog = ks.ackLog ++ [n])
    ∧ (∀ c, mapLookup n (irq.register_irq_handler ks n c).irqMap = some c) := by
  refine ⟨?_, ?_, ?_, ?_⟩
  · intro c hb hc
    have hmb := mailbox_send_mailboxes ks c 0 [n] hc
    refine ⟨?_, ?_, ?_⟩
    · simp only [irq.handle_irq, hb, irq.acknowledge_irq, queueOf, hmb]
      rw [getD_set_self _ _ _ _ (by omega)]
      rfl
    · intro c2 hne
      simp only [irq.handle_irq, hb, irq.acknowledge_irq, queueOf, hmb]
      rw [getD_set_ne _ _ _ _ _ (Ne.symm hne)]
    · simp [irq.handle_irq, hb, irq.acknowledge_irq, mailbox_send_ackLog]
  · intro c hb hc
    have hsend := mailbox_send_out_of_range ks c 0 [n] hc
    constructor <;> simp [irq.handle_irq, hb, irq.acknowledge_irq, hsend]
  · intro hb
    constructor <;> simp [irq.handle_irq, hb, irq.acknowledge_irq]
  · intro c
    exact mapLookup_mapInsert_self n c ks.irqMap

/-- Witness for the IRQ delivery theorem: bind IRQ 4 to channel 2 from the
boot state, inject IRQ 4, and observe one message [4] from sender 0 on
channel 2 plus one acknowledge. -/
theorem irq_delivery_spec_witness :
    queueOf (irq.handle_irq (irq.register_irq_handler bootState 4 2) 4) 2
        = [{ sender_task_id := 0, data := [4] }]
    ∧ (irq.handle_irq (irq.register_irq_handler bootState 4 2) 4).ackLog = [4] :=
  have h := irq_delivery_spec (irq.register_irq_handler bootState 4 2) 4 (by decide)
  have h2 := h.1 2 (by decide) (by decide)
  ⟨by simpa using h2.1, by simpa using h2.2.2⟩

/-- The message a sender-payload pair becomes when enqueued. -/
def msgOf (p : Nat × List Nat) : Message :=
  { sender_task_id := p.1, data := p.2 }

/-- A sequence of sends to one channel, in program order. -/
def sendAll (ks : KState) (c : Nat) : List (Nat × List Nat) → KState
  | [] => ks
  | p :: t => sendAll (mailbox.send ks c p.1 p.2).2 c t

/-- A sequence of k receives on one channel, collecting the delivered
messages in order and stopping early if the mailbox runs dry. -/
def recvAll (ks : KState) (c : Nat) : Nat → List Message × KState
  | 0 => ([], ks)
  | k + 1 =>
    match mailbox.recv ks c with
    | (some m, ks2) =>
      let r := recvAll ks2 c k
      (m :: r.1, r.2)
    | (none, ks2) => ([], ks2)

theorem sendAll_getD (c : Nat) (hc : c < MAX_CHANNELS) :
    ∀ (L : List (Nat × List Nat)) (ks : KState) (q0 : List Message),
      ks.mailboxes.length = MAX_CHANNELS →
      ks.mailboxes.getD c none = some q0 →
      (sendAll ks c L).mailboxes.getD c none = some (q0 ++ L.map msgOf)
      ∧ (sendAll ks c L).mailboxes.length = MAX_CHANNELS := by
  intro L
  induction L with
  | nil =>
    intro ks q0 hlen hq
    refine ⟨?_, hlen⟩
    simpa [sendAll] using hq
  | cons p t ih =>
    intro ks q0 hlen hq
    have hmb := mailbox_send_mailboxes ks c p.1 p.2 hc
    have hq0 : queueOf ks c = q0 := by
      simp only [queueOf, hq, Option.getD_some]
    have hlen2 : (mailbox.send ks c p.1 p.2).2.mailboxes.length = MAX_CHANNELS := by
      rw [mailbox_send_length]; exact hlen
    have hq2 : (mailbox.send ks c p.1 p.2).2.mailboxes.getD c none
        = some (q0 ++ [msgOf p]) := by
      rw [hmb, hq0]
      exact getD_set_self _ _ _ _ (by omega)
    have := ih (mailbox.send ks c p.1 p.2).2 (q0 ++ [msgOf p]) hlen2 hq2
    simpa [sendAll, List.append_assoc] using this

theorem recvAll_take (c : Nat) (hc : c < MAX_CHANNELS) :
    ∀ (k : Nat) (ks : KState) (q : List Message),
      ks.mailboxes.length = MAX_CHANNELS →
      ks.mailboxes.getD c none = some q →
      k ≤ q.length →
      (recvAll ks c k).1 = q.take k := by
  intro k
  induction k with
  | zero => intro ks q _ _ _; rfl
  | succ k ih =>
    intro ks q hlen hq hk
    match q with
    | [] => simp at hk
    | m :: rest =>
      have hrecv : mailbox.recv ks c
          = (some m, { ks with mailboxes := ks.mailboxes.set c (some rest) }) := by
        simp only [List.getD_eq_getElem?_getD] at hq
        simp [mailbox.recv, Nat.not_le.mpr hc, hq]
      have hlen2 :
          ({ ks with mailboxes := ks.mailboxes.set c (some rest) } : KState).mailboxes.length
            = MAX_CHANNELS := by simp [hlen]
      have hq2 :
          ({ ks with mailboxes := ks.mailboxes.set c (some rest) } : KState).mailboxes.getD
            c none = some rest :=
        getD_set_self _ _ _ _ (by omega)
      have := ih _ rest hlen2 hq2 (by simpa using Nat.le_of_succ_le_succ hk)
      simp [recvAll, hrecv, this]

/-- C5: messages on an in-range channel are delivered in FIFO order.
Starting from an empty channel, sending the payload list L and then
receiving L-many times yields exactly the messages of L, in order, each
carrying the sender id recorded at send time — nothing is coalesced,
duplicated or reordered.  In particular a single send followed by a recv
returns exactly the sent message. -/
theorem mailbox_fifo_order (ks : KState) (c : Nat) (L : List (Nat × List Nat))
    (hc : c < MAX_CHANNELS) (hlen : ks.mailboxes.length = MAX_CHANNELS)
    (hq : queueOf ks c = []) :
    (recvAll (sendAll ks c L) c L.length).1 = L.map msgOf
    ∧ (∀ s p, (mailbox.recv (mailbox.send ks c s p).2 c).1
        = some { sender_task_id := s, data := p }) := by
  constructor
  · match L with
    | [] => rfl
    | p :: t =>
      have hmb := mailbox_send_mailboxes ks c p.1 p.2 hc
      have hlen2 : (mailbox.send ks c p.1 p.2).2.mailboxes.length = MAX_CHANNELS := by
        rw [mailbox_send_length]; exact hlen
      have hq2 : (mailbox.send ks c p.1 p.2).2.mailboxes.getD c none = some [msgOf p] := by
        rw [hmb, hq]
        exact getD_set_self _ _ _ _ (by omega)
      have hall := sendAll_getD c hc t (mailbox.send ks c p.1 p.2).2 [msgOf p] hlen2 hq2
      have htake := recvAll_take c hc (p :: t).length (sendAll (mailbox.send ks c p.1 p.2).2 c t)
        ([msgOf p] ++ t.map msgOf) hall.2 hall.1 (by simp)
      calc (recvAll (sendAll ks c (p :: t)) c (p :: t).length).1
          = ([msgOf p] ++ t.map msgOf).take (p :: t).length := by
            simpa [sendAll] using htake
        _ = (p :: t).map msgOf := by simp
  · intro s p
    have hmb := mailbox_send_mailboxes ks c s p hc
    have hq2 : (mailbox.send ks c s p).2.mailboxes.getD c none
        = some [{ sender_task_id := s, data := p }] := by
      rw [hmb, hq]
      simpa using getD_set_self ks.mailboxes c _ none (by omega)
    simp only [List.getD_eq_getElem?_getD] at hq2
    simp [mailbox.recv, Nat.not_le.mpr hc, hq2]

/-- Witness for the FIFO theorem: two sends to the empty channel 7 of the
boot state are received back in order with their sender ids. -/
theorem mailbox_fifo_order_witness :
    (recvAll (sendAll bootState 7 [(3, [1, 2]), (4, [9])]) 7 2).1
      = [{ sender_task_id := 3, data := [1, 2] },
         { sender_task_id := 4, data := [9] }] :=
  have h := mailbox_fifo_order bootState 7 [(3, [1, 2]), (4, [9])]
    (by decide) (by decide) (by decide)
  by simpa [msgOf] using h.1

theorem scheduleLoop_lookup (tasks : List (Nat × TaskControlBlock)) (tid : Nat) :
    ∀ (queue : List Nat) (c0 : Nat), tid ∉ queue →
      mapLookup tid (scheduler.scheduleLoop tasks queue c0).1 = mapLookup tid tasks := by
  intro queue
  induction queue with
  | nil => intro c0 _; rfl
  | cons id rest ih =>
    intro c0 h
    have hid : tid ≠ id := fun he => h (he ▸ List.mem_cons_self id rest)
    have hrest : tid ∉ rest := fun hm => h (List.mem_cons_of_mem id hm)
    match hl : mapLookup id tasks with
    | some t =>
      simp [scheduler.scheduleLoop, hl, mapLookup_mapInsert_ne tid id _ tasks hid]
    | none =>
      simpa [scheduler.scheduleLoop, hl] using ih c0 hrest

/-- C2: behaviour of the blocking receive syscall for an in-range channel,
when the current task holds IpcManage.  (1) If the mailbox head is a
message whose length fits the caller capacity, it is dequeued, its bytes
are copied out to the caller buffer, and its length is returned.  (2) If
the mailbox is empty (peek false), nothing is dequeued, the current task
is marked Blocked and the scheduler runs, and SUCCESS (0) is returned.
(3) If the dequeued message exceeds the capacity it is dropped — removed
from the queue, not requeued, and not copied out — and E_ERROR (1) is
returned. -/
theorem sys_ipc_recv_blocking_spec (ks : KState) (mem : List Nat) (c ptr cap : Nat)
    (t : TaskControlBlock) (hc : c < MAX_CHANNELS)
    (ht : mapLookup ks.sched.currentTaskId ks.sched.tasks = some t)
    (hcap : t.capabilities.any (fun x => x == Capability.IpcManage) = true) :
    (∀ msg rest, ks.mailboxes.getD c none = some (msg :: rest) → msg.data.length ≤ cap →
        syscall_dispatch ks mem SYS_IPC_RECV c ptr cap
          = (msg.data.length,
             { ks with mailboxes := ks.mailboxes.set c (some rest),
                       copyOuts := ks.copyOuts ++ [(ptr, msg.data)] }))
    ∧ (mailbox.peek ks c = false →
        syscall_dispatch ks mem SYS_IPC_RECV c ptr cap
          = (SUCCESS, task.block_current_on_channel ks c)
        ∧ (task.block_current_on_channel ks c).mailboxes = ks.mailboxes
        ∧ (ks.sched.currentTaskId ∉ ks.sched.runQueue →
            mapLookup ks.sched.currentTaskId
                (task.block_current_on_channel ks c).sched.tasks
              = some { t with state := TaskState.Blocked }))
    ∧ (∀ msg rest, ks.mailboxes.getD c none = some (msg :: rest) → cap < msg.data.length →
        syscall_dispatch ks mem SYS_IPC_RECV c ptr cap
          = (E_ERROR, { ks with mailboxes := ks.mailboxes.set c (some rest),
                                copyOuts := ks.copyOuts })) := by
  have hc32 : c < 32 := hc
  have hmod : c % 4294967296 = c := Nat.mod_eq_of_lt (by omega)
  have hcur : task.get_current_task ks = t := by
    simp [task.get_current_task, scheduler.get_current_task_tcb, ht]
  refine ⟨?_, ?_, ?_⟩
  · intro msg rest hq hle
    have hpeek : mailbox.peek ks c = true := by
      simp only [List.getD_eq_getElem?_getD] at hq
      simp [mailbox.peek, Nat.not_le.mpr hc, hq]
    have hrecv : mailbox.recv ks c
        = (some msg, { ks with mailboxes := ks.mailboxes.set c (some rest) }) := by
      simp only [List.getD_eq_getElem?_getD] at hq
      simp [mailbox.recv, Nat.not_le.mpr hc, hq]
    simp [syscall_dispatch, SYS_LOG, SYS_IPC_SEND, SYS_IPC_RECV, hcur, hcap, hmod,
      hpeek, hrecv, hle]
  · intro hpeek
    refine ⟨?_, rfl, ?_⟩
    · simp [syscall_dispatch, SYS_LOG, SYS_IPC_SEND, SYS_IPC_RECV, hcur, hcap, hmod, hpeek]
    · intro hnotin
      have hb : TaskControlBlock.state { t with state := TaskState.Blocked }
          = TaskState.Blocked := rfl
      simp only [task.block_current_on_channel, scheduler.block_current_task, ht,
        scheduler.schedule, mapLookup_mapInsert_self, hb]
      simp only [reduceCtorEq, if_false]
      rw [scheduleLoop_lookup _ _ _ _ hnotin]
      exact mapLookup_mapInsert_self _ _ _
  · intro msg rest hq hgt
    have hpeek : mailbox.peek ks c = true := by
      simp only [List.getD_eq_getElem?_getD] at hq
      simp [mailbox.peek, Nat.not_le.mpr hc, hq]
    have hrecv : mailbox.recv ks c
        = (some msg, { ks with mailboxes := ks.mailboxes.set c (some rest) }) := by
      simp only [List.getD_eq_getElem?_getD] at hq
      simp [mailbox.recv, Nat.not_le.mpr hc, hq]
    simp [syscall_dispatch, SYS_LOG, SYS_IPC_SEND, SYS_IPC_RECV, hcur, hcap, hmod,
      hpeek, hrecv, Nat.not_le.mpr hgt]

/-- Witness for the blocking receive theorem: the kernel task of the boot
state issues the blocking receive on the empty channel 5, gets SUCCESS,
and is marked Blocked. -/
theorem sys_ipc_recv_blocking_spec_witness :
    syscall_dispatch bootState [] SYS_IPC_RECV 5 100 64
        = (SUCCESS, task.block_current_on_channel bootState 5)
    ∧ mapLookup 0 (task.block_current_on_channel bootState 5).sched.tasks
        = some { id := 0, name := "kernel", state := TaskState.Blocked,
                 capabilities := kernelTaskCaps } :=
  have h := sys_ipc_recv_blocking_spec bootState [] 5 100 64
    { id := 0, name := "kernel", state := TaskState.Ready, capabilities := kernelTaskCaps }
    (by decide) (by decide) (by decide)
  have h2 := h.2.1 (by decide)
  ⟨h2.1, h2.2.2 (by decide)⟩

end AetherKernel
